import Mathlib

/-!
Shallow embedding of the batched bulk-operation engine of the
salesforce-python-template repository: the chunker (`src/utils.py`,
`chunk_list`) and the payload builder / dispatcher / reconciler /
orchestrator core (`scripts/upload_data.py`,
`build_sobject_collection_payload`, `send_sobject_collection_request`,
`perform_operation_in_batches`).

Records (Python `Dict[str, str]` rows read from CSV) are modelled as
association lists with `List.lookup` as dictionary lookup; raw API
responses are modelled as structures whose `Option` fields stand for
possibly-absent dictionary keys, so that `resp.success.getD false` is
`response.get("success", False)` and so on.  Fallible Python code
(`raise ValueError`) is modelled with `Except String`.  Logger warnings
emitted by the orchestrator are modelled as an explicit third component
of the accumulated state.  The network call `sf.sf.restful` is modelled
as an opaque function parameter `send : Payload → Except String (List
SFResponse)`; its `Except.error` outcome models the transport-level
exception which `send_sobject_collection_request` re-raises.
-/

namespace Upload

/-- One CSV row / one Salesforce record: a dictionary from field name to
string value, modelled as an association list queried with `List.lookup`. -/
abbrev Rec := List (String × String)

/-! ## Chunker (`src/utils.py`, `chunk_list`)

The Python body is the single comprehension
`[data[i:i + chunk_size] for i in range(0, len(data), chunk_size)]`.
For `chunk_size > 0`, `range(0, n, s)` is the arithmetic progression
`0, s, 2s, ...` of length `⌈n / s⌉`, i.e. `List.range' 0 ((n + s - 1) / s) s`,
and the slice `data[i:i+s]` (with `0 ≤ i`, `0 < s`) is
`(data.drop i).take s`.  For `chunk_size = 0`, Python `range` raises
`ValueError: range() arg 3 must not be zero`.  For `chunk_size < 0`,
`range(0, n, s)` with `n ≥ 0` is empty, so the comprehension silently
yields `[]`. -/

/-- The `chunk_size > 0` branch of `chunk_list`: the list comprehension
`[data[i:i + s] for i in range(0, len(data), s)]`. -/
def chunksNat (s : Nat) (data : List α) : List (List α) :=
  (List.range' 0 ((data.length + s - 1) / s) s).map fun i => (data.drop i).take s

/-- `chunk_list(data, chunk_size)` from `src/utils.py`, with Python's
`range` semantics made explicit for every integer `chunk_size`. -/
def chunk_list (data : List α) (chunk_size : Int) : Except String (List (List α)) :=
  if chunk_size = 0 then
    Except.error "range() arg 3 must not be zero"
  else if 0 < chunk_size then
    Except.ok (chunksNat chunk_size.toNat data)
  else
    Except.ok []

/-! ## Raw API responses (`scripts/upload_data.py`, lines 255-270)

A raw response element is a dictionary such as
`{"id": "001...", "success": true, "errors": [...]}`; any key may be
absent, so each key is an `Option` field and the Python
`response.get(k, default)` is `field.getD default`. -/

/-- One element of a response's `errors` list; `e.get("message", "")`
is `message.getD ""`. -/
structure SFError where
  message : Option String
deriving DecidableEq

/-- One raw per-record response from the SObject Collections endpoint. -/
structure SFResponse where
  success : Option Bool
  id : Option String
  errors : List SFError
deriving DecidableEq

/-- `"; ".join(e.get("message", "") for e in errors)` (line 266). -/
def combineErrors (errors : List SFError) : String :=
  String.intercalate "; " (errors.map fun e => e.message.getD "")

/-! ## Payload builder (`build_sobject_collection_payload`, lines 179-225) -/

/-- The `attributes` sub-dictionary of one wire record: always carries
`type` and `operation`; upsert additionally sets `externalIdField`. -/
structure Attributes where
  type : String
  operation : String
  externalIdField : Option String
deriving DecidableEq

/-- One wire record of the collection payload: the `attributes`
sub-dictionary plus the data fields merged in by `sobject.update(r)`
(or just `Id` for delete). -/
structure SObject where
  attributes : Attributes
  fields : List (String × String)
deriving DecidableEq

/-- The collection payload: `{"allOrNone": False, "records": [...]}`. -/
structure Payload where
  allOrNone : Bool
  records : List SObject
deriving DecidableEq

/-- The per-record body of the `for r in records` loop of
`build_sobject_collection_payload`.  Python raises `ValueError` on the
offending record; `Except.error` models that.  `if not external_id_field`
is true both when the argument is `None` and when it is the empty
string, hence the extra `f = ""` test. -/
def build_sobject (object_name operation : String) (external_id_field : Option String)
    (r : Rec) : Except String SObject :=
  if operation = "insert" then
    Except.ok ⟨⟨object_name, operation, none⟩, r⟩
  else if operation = "update" then
    match r.lookup "Id" with
    | none => Except.error "Record is missing an 'Id' field for update."
    | some _ => Except.ok ⟨⟨object_name, operation, none⟩, r⟩
  else if operation = "delete" then
    match r.lookup "Id" with
    | none => Except.error "Record is missing an 'Id' field for delete."
    | some v => Except.ok ⟨⟨object_name, operation, none⟩, [("Id", v)]⟩
  else if operation = "upsert" then
    match external_id_field with
    | none => Except.error "Must specify --external_id_field for upsert."
    | some f =>
      if f = "" then Except.error "Must specify --external_id_field for upsert."
      else
        match r.lookup f with
        | none => Except.error ("Record is missing '" ++ f ++ "' field for upsert.")
        | some _ => Except.ok ⟨⟨object_name, operation, some f⟩, r⟩
  else
    Except.error ("Unknown operation: " ++ operation)

/-- `build_sobject_collection_payload(records, object_name, operation,
external_id_field)`: builds the wire records in order, propagating the
first `ValueError`, and wraps them with `allOrNone = False`. -/
def build_sobject_collection_payload (records : List Rec) (object_name operation : String)
    (external_id_field : Option String) : Except String Payload :=
  match records.mapM (build_sobject object_name operation external_id_field) with
  | Except.error e => Except.error e
  | Except.ok sobjects => Except.ok ⟨false, sobjects⟩

/-! ## Reconciler and orchestrator (`perform_operation_in_batches`,
lines 228-271) -/

/-- A success entry `{"record": original, "id": response.get("id")}`. -/
structure SuccessEntry where
  record : Rec
  id : Option String
deriving DecidableEq

/-- A failure entry `{"record": original, "error": combined_errors}`. -/
structure FailureEntry where
  record : Rec
  error : String
deriving DecidableEq

/-- The `for original, response in zip(chunk, result_records)` loop
(lines 258-270): position-aligned classification of one batch. -/
def reconcile : List (Rec × SFResponse) → List SuccessEntry × List FailureEntry
  | [] => ([], [])
  | (original, response) :: rest =>
    let acc := reconcile rest
    if response.success.getD false then
      (⟨original, response.id⟩ :: acc.1, acc.2)
    else
      (acc.1, ⟨original, combineErrors response.errors⟩ :: acc.2)

/-- Orchestrator state: accumulated successes, failures, and the
warnings emitted through `logger.warning` (modelled explicitly). -/
abbrev SFAcc := List SuccessEntry × List FailureEntry × List String

/-- The warning text of line 257. -/
def countMismatchWarning : String :=
  "Response count does not match request count - check API behavior"

/-- One iteration of the `for chunk_idx, chunk in enumerate(...)` loop:
build the payload, dispatch it through `send` (the modelled
`send_sobject_collection_request`, whose `Except.error` is a raised
transport-level exception), warn on a count mismatch, then reconcile
`zip(chunk, result_records)` and append to the running totals. -/
def processBatch (send : Payload → Except String (List SFResponse))
    (bp : List Rec → Except String Payload)
    (acc : SFAcc) (chunk : List Rec) : Except String SFAcc :=
  match bp chunk with
  | Except.error e => Except.error e
  | Except.ok payload =>
    match send payload with
    | Except.error e => Except.error e
    | Except.ok result_records =>
      let warns := if result_records.length ≠ chunk.length
        then acc.2.2 ++ [countMismatchWarning]
        else acc.2.2
      let sf := reconcile (chunk.zip result_records)
      Except.ok (acc.1 ++ sf.1, acc.2.1 ++ sf.2, warns)

/-- The whole chunk loop: a raised exception aborts it immediately. -/
def processChunks (send : Payload → Except String (List SFResponse))
    (bp : List Rec → Except String Payload) :
    List (List Rec) → SFAcc → Except String SFAcc
  | [], acc => Except.ok acc
  | c :: rest, acc =>
    match processBatch send bp acc c with
    | Except.error e => Except.error e
    | Except.ok acc2 => processChunks send bp rest acc2

/-- The payload builder specialised to one run's fixed arguments, as it
is called on line 253. -/
def buildFor (object_name operation : String) (external_id_field : Option String) :
    List Rec → Except String Payload :=
  fun chunk => build_sobject_collection_payload chunk object_name operation external_id_field

/-- `perform_operation_in_batches(object_name, operation, records, sf,
external_id_field, batch_size, logger)`: chunk, then run the loop from
empty accumulators.  The Salesforce client and logger are modelled by
`send` and the warning component of the state. -/
def perform_operation_in_batches (object_name operation : String) (records : List Rec)
    (external_id_field : Option String) (batch_size : Int)
    (send : Payload → Except String (List SFResponse)) : Except String SFAcc :=
  match chunk_list records batch_size with
  | Except.error e => Except.error e
  | Except.ok chunks =>
    processChunks send (buildFor object_name operation external_id_field) chunks ([], [], [])

/-! ## Concrete data for closed evaluation theorems -/

/-- A concrete record used in closed instances. -/
def wRecA : Rec := [("Name", "Alice")]

/-- A concrete record used in closed instances. -/
def wRecB : Rec := [("Name", "Bob")]

/-- A concrete record used in closed instances. -/
def wRecC : Rec := [("Name", "Carol")]

/-- A concrete record used in closed instances. -/
def wRecD : Rec := [("Name", "Dave")]

/-- A record that lacks the `Id` key. -/
def wRecNoId : Rec := [("Name", "NoId")]

/-- A record that carries the `Id` key plus another field. -/
def wRecWithId : Rec := [("Id", "003A"), ("Name", "HasId")]

/-- A successful response with an assigned id. -/
def wRespOk1 : SFResponse := ⟨some true, some "001", []⟩

/-- A successful response with an assigned id. -/
def wRespOk2 : SFResponse := ⟨some true, some "002", []⟩

/-- A failed response with one error message. -/
def wRespFail : SFResponse := ⟨some false, none, [⟨some "bad"⟩]⟩

/-- A response whose `success` key is absent. -/
def wRespNoKey : SFResponse := ⟨none, some "009", [⟨some "boom"⟩]⟩

/-- A successful response whose `id` key is absent. -/
def wRespNoId : SFResponse := ⟨some true, none, []⟩

/-- The insert payload for a chunk, as the builder produces it. -/
def wPayloadIns (c : List Rec) : Payload :=
  ⟨false, c.map fun r => ⟨⟨"Account", "insert", none⟩, r⟩⟩

/-- A dispatcher that succeeds on the first batch `[wRecA, wRecB]` and
raises a transport error on anything else. -/
def wSendFailSecond : Payload → Except String (List SFResponse) :=
  fun p => if p = wPayloadIns [wRecA, wRecB] then Except.ok [wRespOk1, wRespOk2]
    else Except.error "TransportError"

/-- A dispatcher that always succeeds, marking the second record of a
two-record batch as failed. -/
def wSendMixed : Payload → Except String (List SFResponse) :=
  fun p => if p.records.length = 1 then Except.ok [wRespOk1]
    else Except.ok [wRespOk1, wRespFail]

/-- A dispatcher returning a single response regardless of batch size. -/
def wSendShort : Payload → Except String (List SFResponse) :=
  fun _ => Except.ok [wRespOk1]

/-- The response list `wSendMixed` assigns to a chunk, keyed on its size. -/
def wSendFResp : List Rec → List SFResponse :=
  fun c => if c.length = 1 then [wRespOk1] else [wRespOk1, wRespFail]

/-! ## Chunker lemmas -/

theorem chunksNat_nil (s : Nat) : chunksNat s ([] : List α) = [] := by
  simp only [chunksNat, List.length_nil, Nat.zero_add]
  rcases Nat.eq_zero_or_pos s with hs | hs
  · subst hs; rfl
  · rw [Nat.div_eq_of_lt (by omega)]; rfl

theorem ceil_div_step (n s : Nat) (hs : 0 < s) (hn : 0 < n) :
    (n + s - 1) / s = ((n - s) + s - 1) / s + 1 := by
  rcases le_or_lt n s with h | h
  · have h1 : n - s = 0 := by omega
    rw [h1]
    have h2 : (0 + s - 1) / s = 0 := Nat.div_eq_of_lt (by omega)
    rw [h2]
    have h3 : n + s - 1 = (n - 1) + s := by omega
    rw [h3, Nat.add_div_right _ hs, Nat.div_eq_of_lt (by omega)]
  · have h3 : n + s - 1 = (n - 1) + s := by omega
    have h4 : (n - s) + s - 1 = (n - s - 1) + s := by omega
    rw [h3, h4, Nat.add_div_right _ hs, Nat.add_div_right _ hs]
    have h5 : n - 1 = (n - s - 1) + s := by omega
    rw [h5, Nat.add_div_right _ hs]

/-- Unfolding law of the comprehension for a nonempty input and positive
size: the first slice is `data.take s` and the rest chunks `data.drop s`. -/
theorem chunksNat_cons (s : Nat) (hs : 0 < s) (data : List α) (hd : data ≠ []) :
    chunksNat s data = data.take s :: chunksNat s (data.drop s) := by
  have hn : 0 < data.length := List.length_pos.mpr hd
  unfold chunksNat
  rw [List.length_drop, ceil_div_step data.length s hs hn, List.range'_succ,
    List.map_cons]
  simp only [List.drop_zero, Nat.zero_add]
  congr 1
  have hm := List.map_add_range' s 0 (((data.length - s) + s - 1) / s) s
  rw [Nat.add_zero] at hm
  rw [Eq.symm hm, List.map_map]
  apply List.map_congr_left
  intro i _
  simp only [Function.comp_apply]
  rw [List.drop_drop]

theorem chunksNat_flatten (s : Nat) (hs : 0 < s) :
    ∀ data : List α, (chunksNat s data).flatten = data
  | [] => by rw [chunksNat_nil]; rfl
  | a :: l => by
    rw [chunksNat_cons s hs (a :: l) (by simp), List.flatten_cons,
      chunksNat_flatten s hs ((a :: l).drop s), List.take_append_drop]
termination_by data => data.length
decreasing_by simp only [List.length_drop, List.length_cons]; omega

theorem chunksNat_mem_bounds (s : Nat) (hs : 0 < s) :
    ∀ data : List α, ∀ b ∈ chunksNat s data, 1 ≤ b.length ∧ b.length ≤ s
  | [] => by rw [chunksNat_nil]; intro b hb; cases hb
  | a :: l => by
    rw [chunksNat_cons s hs (a :: l) (by simp)]
    intro b hb
    rcases List.mem_cons.mp hb with hb | hb
    · subst hb
      constructor
      · simp only [List.length_take, List.length_cons]; omega
      · simp [List.length_take]
    · exact chunksNat_mem_bounds s hs ((a :: l).drop s) b hb
termination_by data => data.length
decreasing_by simp only [List.length_drop, List.length_cons]; omega

theorem chunksNat_ne_nil (s : Nat) (hs : 0 < s) (data : List α) (hd : data ≠ []) :
    chunksNat s data ≠ [] := by
  rw [chunksNat_cons s hs data hd]; simp

theorem chunksNat_full (s : Nat) (hs : 0 < s) :
    ∀ data : List α, ∀ i : Nat, ∀ h : i + 1 < (chunksNat s data).length,
      ((chunksNat s data).get ⟨i, by omega⟩).length = s
  | [] => by rw [chunksNat_nil]; intro i h; simp at h
  | a :: l => by
    rw [chunksNat_cons s hs (a :: l) (by simp)]
    intro i h
    match i with
    | 0 =>
      simp only [List.length_cons] at h
      have hrest : chunksNat s ((a :: l).drop s) ≠ [] := by
        intro hnil
        rw [hnil] at h
        simp at h
      have hdrop : (a :: l).drop s ≠ [] := by
        intro hnil
        rw [hnil, chunksNat_nil] at hrest
        exact hrest rfl
      have hlen : s < (a :: l).length := by
        by_contra hle
        exact hdrop (List.drop_eq_nil_of_le (by omega))
      show ((a :: l).take s).length = s
      simp only [List.length_take]
      omega
    | j + 1 =>
      simp only [List.length_cons] at h
      exact chunksNat_full s hs ((a :: l).drop s) j (by omega)
termination_by data => data.length
decreasing_by simp only [List.length_drop, List.length_cons]; omega

/-! ## Reconciler lemmas -/

theorem reconcile_fst (pairs : List (Rec × SFResponse)) :
    (reconcile pairs).1 =
      (pairs.filter fun p => p.2.success.getD false).map fun p => ⟨p.1, p.2.id⟩ := by
  induction pairs with
  | nil => rfl
  | cons p rest ih =>
    obtain ⟨original, response⟩ := p
    by_cases h : response.success.getD false = true
    · simp only [reconcile, h, if_pos, List.filter_cons, List.map_cons, ih]
    · simp only [reconcile, h, if_neg, Bool.false_eq_true, not_false_iff,
        List.filter_cons]
      simp only [h, Bool.false_eq_true, if_false, ih]

theorem reconcile_snd (pairs : List (Rec × SFResponse)) :
    (reconcile pairs).2 =
      (pairs.filter fun p => !(p.2.success.getD false)).map
        fun p => ⟨p.1, combineErrors p.2.errors⟩ := by
  induction pairs with
  | nil => rfl
  | cons p rest ih =>
    obtain ⟨original, response⟩ := p
    by_cases h : response.success.getD false = true
    · simp only [reconcile, h, if_pos, List.filter_cons]
      simp only [h, Bool.not_true, Bool.false_eq_true, if_false, ih]
    · simp only [reconcile, h, Bool.false_eq_true, if_false, List.filter_cons]
      simp only [h, Bool.not_false, Bool.false_eq_true, if_true, List.map_cons, ih]

theorem reconcile_length (pairs : List (Rec × SFResponse)) :
    (reconcile pairs).1.length + (reconcile pairs).2.length = pairs.length := by
  induction pairs with
  | nil => rfl
  | cons p rest ih =>
    obtain ⟨original, response⟩ := p
    by_cases h : response.success.getD false = true
    · simp only [reconcile, h, if_pos, List.length_cons]
      omega
    · simp only [reconcile, h, Bool.false_eq_true, if_false, List.length_cons]
      omega

/-- `zip` only consumes the prefix of the left list covered by the
right list. -/
theorem zip_take_len : ∀ (l1 : List α) (l2 : List β),
    l1.zip l2 = (l1.take l2.length).zip l2
  | [], _ => by simp
  | _ :: _, [] => by simp
  | a :: l1, b :: l2 => by
    simp only [List.zip_cons_cons, List.length_cons, List.take_succ_cons]
    rw [Eq.symm (zip_take_len l1 l2)]

/-! ## Payload builder lemmas -/

theorem build_sobject_delete_ok (object_name : String) (eid : Option String) (r : Rec)
    (v : String) (hv : r.lookup "Id" = some v) :
    build_sobject object_name "delete" eid r =
      Except.ok ⟨⟨object_name, "delete", none⟩, [("Id", v)]⟩ := by
  unfold build_sobject
  rw [if_neg (by decide), if_neg (by decide), if_pos rfl, hv]

theorem build_sobject_delete_err (object_name : String) (eid : Option String) (r : Rec)
    (hv : r.lookup "Id" = none) :
    build_sobject object_name "delete" eid r =
      Except.error "Record is missing an 'Id' field for delete." := by
  unfold build_sobject
  rw [if_neg (by decide), if_neg (by decide), if_pos rfl, hv]

theorem build_sobject_update_ok (object_name : String) (eid : Option String) (r : Rec)
    (v : String) (hv : r.lookup "Id" = some v) :
    build_sobject object_name "update" eid r =
      Except.ok ⟨⟨object_name, "update", none⟩, r⟩ := by
  unfold build_sobject
  rw [if_neg (by decide), if_pos rfl, hv]

theorem build_sobject_update_err (object_name : String) (eid : Option String) (r : Rec)
    (hv : r.lookup "Id" = none) :
    build_sobject object_name "update" eid r =
      Except.error "Record is missing an 'Id' field for update." := by
  unfold build_sobject
  rw [if_neg (by decide), if_pos rfl, hv]

theorem build_sobject_upsert_noeid (object_name : String) (eid : Option String)
    (heid : eid = none ∨ eid = some "") (r : Rec) :
    build_sobject object_name "upsert" eid r =
      Except.error "Must specify --external_id_field for upsert." := by
  rcases heid with h | h <;> subst h <;> rfl

theorem build_sobject_upsert_missing (object_name : String) (f : String) (hf : f ≠ "")
    (r : Rec) (hv : r.lookup f = none) :
    build_sobject object_name "upsert" (some f) r =
      Except.error ("Record is missing '" ++ f ++ "' field for upsert.") := by
  simp [build_sobject, hf, hv]

theorem build_sobject_upsert_ok (object_name : String) (f : String) (hf : f ≠ "")
    (r : Rec) (v : String) (hv : r.lookup f = some v) :
    build_sobject object_name "upsert" (some f) r =
      Except.ok ⟨⟨object_name, "upsert", some f⟩, r⟩ := by
  simp [build_sobject, hf, hv]

theorem mapM_delete (object_name : String) (eid : Option String) :
    ∀ records : List Rec, (∀ r ∈ records, (r.lookup "Id").isSome) →
      records.mapM (build_sobject object_name "delete" eid) =
        Except.ok (records.map fun r =>
          ⟨⟨object_name, "delete", none⟩, [("Id", (r.lookup "Id").getD "")]⟩)
  | [], _ => rfl
  | r :: rest, h => by
    have hr : (r.lookup "Id").isSome := h r (by simp)
    obtain ⟨v, hv⟩ := Option.isSome_iff_exists.mp hr
    have hrest := mapM_delete object_name eid rest
      (fun x hx => h x (List.mem_cons_of_mem _ hx))
    simp only [List.mapM_cons, build_sobject_delete_ok object_name eid r v hv, hrest,
      List.map_cons, hv, Option.getD_some]
    rfl

theorem mapM_update_missing (object_name : String) (eid : Option String) :
    ∀ records : List Rec, (∃ r ∈ records, r.lookup "Id" = none) →
      records.mapM (build_sobject object_name "update" eid) =
        Except.error "Record is missing an 'Id' field for update."
  | [], h => by obtain ⟨r, hr, _⟩ := h; cases hr
  | r :: rest, h => by
    cases hlook : r.lookup "Id" with
    | none =>
      simp only [List.mapM_cons, build_sobject_update_err object_name eid r hlook]
      rfl
    | some v =>
      obtain ⟨x, hx, hlx⟩ := h
      rcases List.mem_cons.mp hx with rfl | hx2
      · rw [hlook] at hlx; cases hlx
      · have hrest := mapM_update_missing object_name eid rest ⟨x, hx2, hlx⟩
        simp only [List.mapM_cons, build_sobject_update_ok object_name eid r v hlook, hrest]
        rfl

theorem mapM_delete_missing (object_name : String) (eid : Option String) :
    ∀ records : List Rec, (∃ r ∈ records, r.lookup "Id" = none) →
      records.mapM (build_sobject object_name "delete" eid) =
        Except.error "Record is missing an 'Id' field for delete."
  | [], h => by obtain ⟨r, hr, _⟩ := h; cases hr
  | r :: rest, h => by
    cases hlook : r.lookup "Id" with
    | none =>
      simp only [List.mapM_cons, build_sobject_delete_err object_name eid r hlook]
      rfl
    | some v =>
      obtain ⟨x, hx, hlx⟩ := h
      rcases List.mem_cons.mp hx with rfl | hx2
      · rw [hlook] at hlx; cases hlx
      · have hrest := mapM_delete_missing object_name eid rest ⟨x, hx2, hlx⟩
        simp only [List.mapM_cons, build_sobject_delete_ok object_name eid r v hlook, hrest]
        rfl

theorem mapM_upsert_missing (object_name : String) (f : String) (hf : f ≠ "") :
    ∀ records : List Rec, (∃ r ∈ records, r.lookup f = none) →
      records.mapM (build_sobject object_name "upsert" (some f)) =
        Except.error ("Record is missing '" ++ f ++ "' field for upsert.")
  | [], h => by obtain ⟨r, hr, _⟩ := h; cases hr
  | r :: rest, h => by
    cases hlook : r.lookup f with
    | none =>
      simp only [List.mapM_cons, build_sobject_upsert_missing object_name f hf r hlook]
      rfl
    | some v =>
      obtain ⟨x, hx, hlx⟩ := h
      rcases List.mem_cons.mp hx with rfl | hx2
      · rw [hlook] at hlx; cases hlx
      · have hrest := mapM_upsert_missing object_name f hf rest ⟨x, hx2, hlx⟩
        simp only [List.mapM_cons, build_sobject_upsert_ok object_name f hf r v hlook, hrest]
        rfl

/-! ## Orchestrator lemmas -/

theorem processChunks_append (send : Payload → Except String (List SFResponse))
    (bp : List Rec → Except String Payload) :
    ∀ (l1 l2 : List (List Rec)) (acc : SFAcc),
      processChunks send bp (l1 ++ l2) acc =
        match processChunks send bp l1 acc with
        | Except.error e => Except.error e
        | Except.ok acc2 => processChunks send bp l2 acc2
  | [], l2, acc => rfl
  | c :: rest, l2, acc => by
    simp only [List.cons_append, processChunks]
    cases hpb : processBatch send bp acc c with
    | error e => rfl
    | ok acc2 => exact processChunks_append send bp rest l2 acc2

theorem processBatch_ok (send : Payload → Except String (List SFResponse))
    (bp : List Rec → Except String Payload) (acc : SFAcc) (chunk : List Rec)
    (payload : Payload) (result_records : List SFResponse)
    (hb : bp chunk = Except.ok payload) (hs : send payload = Except.ok result_records) :
    processBatch send bp acc chunk =
      Except.ok (acc.1 ++ (reconcile (chunk.zip result_records)).1,
        acc.2.1 ++ (reconcile (chunk.zip result_records)).2,
        if result_records.length ≠ chunk.length
          then acc.2.2 ++ [countMismatchWarning] else acc.2.2) := by
  unfold processBatch
  simp only [hb, hs]

theorem processBatch_build_err (send : Payload → Except String (List SFResponse))
    (bp : List Rec → Except String Payload) (acc : SFAcc) (chunk : List Rec)
    (e : String) (hb : bp chunk = Except.error e) :
    processBatch send bp acc chunk = Except.error e := by
  unfold processBatch
  rw [hb]

theorem processBatch_send_err (send : Payload → Except String (List SFResponse))
    (bp : List Rec → Except String Payload) (acc : SFAcc) (chunk : List Rec)
    (payload : Payload) (e : String)
    (hb : bp chunk = Except.ok payload) (hs : send payload = Except.error e) :
    processBatch send bp acc chunk = Except.error e := by
  unfold processBatch
  simp only [hb, hs]

theorem processChunks_ok_of (send : Payload → Except String (List SFResponse))
    (bp : List Rec → Except String Payload) (bpF : List Rec → Payload)
    (sendF : List Rec → List SFResponse) :
    ∀ chunks : List (List Rec), (∀ c ∈ chunks, bp c = Except.ok (bpF c)) →
      (∀ c ∈ chunks, send (bpF c) = Except.ok (sendF c)) →
      ∀ s0 f0 w0, ∃ W : List String,
        processChunks send bp chunks (s0, f0, w0) =
          Except.ok (s0 ++ (chunks.map fun c => (reconcile (c.zip (sendF c))).1).flatten,
            f0 ++ (chunks.map fun c => (reconcile (c.zip (sendF c))).2).flatten, W)
  | [], _, _, s0, f0, w0 => ⟨w0, by simp [processChunks]⟩
  | c :: rest, hbp, hsend, s0, f0, w0 => by
    have hb := hbp c (by simp)
    have hs := hsend c (by simp)
    have hstep := processBatch_ok send bp (s0, f0, w0) c (bpF c) (sendF c) hb hs
    obtain ⟨W, hW⟩ := processChunks_ok_of send bp bpF sendF rest
      (fun x hx => hbp x (List.mem_cons_of_mem _ hx))
      (fun x hx => hsend x (List.mem_cons_of_mem _ hx))
      (s0 ++ (reconcile (c.zip (sendF c))).1) (f0 ++ (reconcile (c.zip (sendF c))).2)
      (if (sendF c).length ≠ c.length then w0 ++ [countMismatchWarning] else w0)
    refine ⟨W, ?_⟩
    show (match processBatch send bp (s0, f0, w0) c with
      | Except.error e => Except.error e
      | Except.ok acc2 => processChunks send bp rest acc2) = _
    rw [hstep]
    show processChunks send bp rest _ = _
    rw [hW]
    simp [List.append_assoc]

theorem build_ok_shape (records : List Rec) (object_name operation : String)
    (external_id_field : Option String) (sobjects : List SObject)
    (hm : records.mapM (build_sobject object_name operation external_id_field) =
      Except.ok sobjects) :
    build_sobject_collection_payload records object_name operation external_id_field =
      Except.ok ⟨false, sobjects⟩ := by
  unfold build_sobject_collection_payload
  rw [hm]

theorem build_err_shape (records : List Rec) (object_name operation : String)
    (external_id_field : Option String) (e : String)
    (hm : records.mapM (build_sobject object_name operation external_id_field) =
      Except.error e) :
    build_sobject_collection_payload records object_name operation external_id_field =
      Except.error e := by
  unfold build_sobject_collection_payload
  rw [hm]

/-! ## Claims -/

/-- C1 (confirmed).  Chunk completeness: for every list of records and every
size `S > 0`, `chunk_list` succeeds and the concatenation of the returned
batches is the input element-for-element, every batch except possibly the
last has exactly `S` elements, every batch (in particular the last) has
between 1 and `S` elements, and an empty input yields an empty sequence of
batches (not one empty batch). -/
theorem chunk_completeness (data : List α) (S : Int) (hS : 0 < S) :
    ∃ chunks : List (List α),
      chunk_list data S = Except.ok chunks ∧
      chunks.flatten = data ∧
      (∀ i : Nat, ∀ h : i + 1 < chunks.length, (chunks.get ⟨i, by omega⟩).length = S.toNat) ∧
      (∀ b ∈ chunks, 1 ≤ b.length ∧ b.length ≤ S.toNat) ∧
      (data = [] → chunks = []) := by
  have hs : 0 < S.toNat := by omega
  refine ⟨chunksNat S.toNat data, ?_, chunksNat_flatten _ hs data,
    chunksNat_full _ hs data, chunksNat_mem_bounds _ hs data, ?_⟩
  · unfold chunk_list
    rw [if_neg (by omega), if_pos hS]
  · intro h; subst h; exact chunksNat_nil _

/-- Closed instance of `chunk_completeness` at 5 records and size 2. -/
theorem chunk_completeness_witness :
    (0 : Int) < 2 ∧
      (∃ chunks : List (List Nat),
        chunk_list [1, 2, 3, 4, 5] (2 : Int) = Except.ok chunks ∧
        chunks.flatten = [1, 2, 3, 4, 5] ∧
        (∀ i : Nat, ∀ h : i + 1 < chunks.length,
          (chunks.get ⟨i, by omega⟩).length = (2 : Int).toNat) ∧
        (∀ b ∈ chunks, 1 ≤ b.length ∧ b.length ≤ (2 : Int).toNat) ∧
        ([1, 2, 3, 4, 5] = ([] : List Nat) → chunks = [])) :=
  ⟨by decide, chunk_completeness [1, 2, 3, 4, 5] 2 (by decide)⟩

/-- C8 counterexample.  The claim says the chunker fails with an
invalid-argument error for every size `S ≤ 0`; at the concrete input
`data = [[("Name", "x")]]`, `S = -1`, `chunk_list` raises nothing and
silently returns an empty list of batches, because Python
`range(0, 1, -1)` is empty. -/
theorem chunker_validation_cex :
    chunk_list ([[("Name", "x")]] : List Rec) (-1 : Int) = Except.ok [] := rfl

/-- C8 (corrected).  Amended claim: for size `S = 0` the chunker fails
(with the `ValueError` that Python `range` raises for a zero step); for
`S < 0` it fails with nothing and silently returns an empty sequence of
batches. -/
theorem chunker_validation_amended (data : List α) (S : Int) (hS : S ≤ 0) :
    (S = 0 → chunk_list data S = Except.error "range() arg 3 must not be zero") ∧
    (S < 0 → chunk_list data S = Except.ok []) := by
  constructor
  · intro h
    subst h
    rfl
  · intro h
    unfold chunk_list
    rw [if_neg (by omega), if_neg (by omega)]

/-- Closed instance of `chunker_validation_amended` at sizes 0 and -1. -/
theorem chunker_validation_amended_witness :
    ((0 : Int) ≤ 0 ∧
      chunk_list ([[("Name", "x")]] : List Rec) 0 =
        Except.error "range() arg 3 must not be zero") ∧
    ((-1 : Int) ≤ 0 ∧
      chunk_list ([[("Name", "x")]] : List Rec) (-1) = Except.ok []) :=
  ⟨⟨by decide, (chunker_validation_amended [[("Name", "x")]] 0 (by decide)).1 rfl⟩,
   ⟨by decide, (chunker_validation_amended [[("Name", "x")]] (-1) (by decide)).2 (by decide)⟩⟩

/-- C9 (confirmed).  All-or-none flag invariant: whenever the payload
builder succeeds — for any batch, object name, operation and external-id
field — the built payload carries `allOrNone = false`. -/
theorem allOrNone_always_false (records : List Rec) (object_name operation : String)
    (external_id_field : Option String) (payload : Payload)
    (h : build_sobject_collection_payload records object_name operation external_id_field =
      Except.ok payload) :
    payload.allOrNone = false := by
  cases hm : records.mapM (build_sobject object_name operation external_id_field) with
  | error e =>
    rw [build_err_shape records object_name operation external_id_field e hm] at h
    exact Except.noConfusion h
  | ok l =>
    rw [build_ok_shape records object_name operation external_id_field l hm] at h
    injection h with h2
    rw [Eq.symm h2]

/-- Closed instance of `allOrNone_always_false` for a one-record insert. -/
theorem allOrNone_always_false_witness :
    build_sobject_collection_payload [wRecA] "Account" "insert" none =
        Except.ok ⟨false, [⟨⟨"Account", "insert", none⟩, wRecA⟩]⟩ ∧
      (⟨false, [⟨⟨"Account", "insert", none⟩, wRecA⟩]⟩ : Payload).allOrNone = false :=
  ⟨rfl, allOrNone_always_false [wRecA] "Account" "insert" none _ rfl⟩

/-- C7 (confirmed).  Delete payload minimization: for a batch whose
records all carry `Id`, the delete payload keeps, per record, only the
`Id` field next to the operation metadata — every other source field is
dropped — and the payload's record list is the positional image (`map`)
of the batch. -/
theorem delete_payload_minimization (records : List Rec) (object_name : String)
    (external_id_field : Option String)
    (h : ∀ r ∈ records, (r.lookup "Id").isSome) :
    build_sobject_collection_payload records object_name "delete" external_id_field =
      Except.ok ⟨false, records.map fun r =>
        ⟨⟨object_name, "delete", none⟩, [("Id", (r.lookup "Id").getD "")]⟩⟩ := by
  unfold build_sobject_collection_payload
  rw [mapM_delete object_name external_id_field records h]

/-- Closed instance of `delete_payload_minimization`: the `Name` field
of the record is dropped, only `Id` remains. -/
theorem delete_payload_minimization_witness :
    (∀ r ∈ [wRecWithId], (r.lookup "Id").isSome) ∧
      build_sobject_collection_payload [wRecWithId] "Account" "delete" none =
        Except.ok ⟨false, [⟨⟨"Account", "delete", none⟩, [("Id", "003A")]⟩]⟩ :=
  ⟨by decide, delete_payload_minimization [wRecWithId] "Account" none (by decide)⟩

/-- C10 (confirmed).  A response with no `success` key at all is
classified as a failure (`response.get("success", False)` defaults to
false), and a response with `success = true` but no `id` key is still
recorded as a success whose assigned identifier is absent (`none`). -/
theorem implicit_success_classification (r : Rec) (resp : SFResponse) :
    (resp.success = none →
      reconcile [(r, resp)] = ([], [⟨r, combineErrors resp.errors⟩])) ∧
    (resp.success = some true → resp.id = none →
      reconcile [(r, resp)] = ([⟨r, none⟩], [])) := by
  constructor
  · intro h
    simp [reconcile, h]
  · intro h hid
    simp [reconcile, h, hid]

/-- Closed instance of `implicit_success_classification` at a response
lacking `success` and a success response lacking `id`. -/
theorem implicit_success_classification_witness :
    (wRespNoKey.success = none ∧
      reconcile [(wRecA, wRespNoKey)] = ([], [⟨wRecA, "boom"⟩])) ∧
    (wRespNoId.success = some true ∧ wRespNoId.id = none ∧
      reconcile [(wRecA, wRespNoId)] = ([⟨wRecA, none⟩], [])) :=
  ⟨⟨rfl, (implicit_success_classification wRecA wRespNoKey).1 rfl⟩,
   ⟨rfl, rfl, (implicit_success_classification wRecA wRespNoId).2 rfl rfl⟩⟩

/-- C2 (confirmed).  Reconciliation positional correctness: the zip pairs
record `i` with response `i`; a pair is classified as a success carrying
the response's identifier exactly when the response's success flag is
true, and otherwise as a failure whose message is the semicolon-separated
concatenation of the response's error messages (empty when there are
none); each entry retains the original record as `p.1`. -/
theorem reconcile_positional (chunk : List Rec) (responses : List SFResponse)
    (h : chunk.length = responses.length) :
    (∀ i : Nat, ∀ pr : Rec × SFResponse,
      (chunk.zip responses)[i]? = some pr ↔
        chunk[i]? = some pr.1 ∧ responses[i]? = some pr.2) ∧
    (reconcile (chunk.zip responses)).1 =
      ((chunk.zip responses).filter fun p => p.2.success.getD false).map
        (fun p => ⟨p.1, p.2.id⟩) ∧
    (reconcile (chunk.zip responses)).2 =
      ((chunk.zip responses).filter fun p => !(p.2.success.getD false)).map
        (fun p => ⟨p.1, combineErrors p.2.errors⟩) := by
  refine ⟨?_, reconcile_fst _, reconcile_snd _⟩
  intro i pr
  exact List.getElem?_zip_eq_some

/-- Closed instance of `reconcile_positional` at a two-record batch with
one success and one failure. -/
theorem reconcile_positional_witness :
    [wRecA, wRecB].length = [wRespOk1, wRespFail].length ∧
      ((∀ i : Nat, ∀ pr : Rec × SFResponse,
        ([wRecA, wRecB].zip [wRespOk1, wRespFail])[i]? = some pr ↔
          [wRecA, wRecB][i]? = some pr.1 ∧ [wRespOk1, wRespFail][i]? = some pr.2) ∧
      (reconcile ([wRecA, wRecB].zip [wRespOk1, wRespFail])).1 =
        (([wRecA, wRecB].zip [wRespOk1, wRespFail]).filter
          fun p => p.2.success.getD false).map (fun p => ⟨p.1, p.2.id⟩) ∧
      (reconcile ([wRecA, wRecB].zip [wRespOk1, wRespFail])).2 =
        (([wRecA, wRecB].zip [wRespOk1, wRespFail]).filter
          fun p => !(p.2.success.getD false)).map
            (fun p => ⟨p.1, combineErrors p.2.errors⟩)) :=
  ⟨rfl, reconcile_positional [wRecA, wRecB] [wRespOk1, wRespFail] rfl⟩

/-- C4 (confirmed).  Precondition enforcement in the payload builder:
an update or delete batch containing a record without `Id` fails with
the missing-identifier error; an upsert batch with no (or an empty)
external-id field name fails with the configuration error (on any
nonempty batch); an upsert batch with a record lacking the external-id
field fails with the missing-identifier error; and whenever the builder
fails, the batch step fails before `send` is ever consulted, for every
dispatcher. -/
theorem payload_preconditions (object_name : String) (records : List Rec) :
    (∀ eid : Option String, (∃ r ∈ records, r.lookup "Id" = none) →
      build_sobject_collection_payload records object_name "update" eid =
        Except.error "Record is missing an 'Id' field for update.") ∧
    (∀ eid : Option String, (∃ r ∈ records, r.lookup "Id" = none) →
      build_sobject_collection_payload records object_name "delete" eid =
        Except.error "Record is missing an 'Id' field for delete.") ∧
    (∀ eid : Option String, (eid = none ∨ eid = some "") → records ≠ [] →
      build_sobject_collection_payload records object_name "upsert" eid =
        Except.error "Must specify --external_id_field for upsert.") ∧
    (∀ f : String, f ≠ "" → (∃ r ∈ records, r.lookup f = none) →
      build_sobject_collection_payload records object_name "upsert" (some f) =
        Except.error ("Record is missing '" ++ f ++ "' field for upsert.")) ∧
    (∀ (op : String) (eid : Option String) (e : String)
        (send : Payload → Except String (List SFResponse)) (acc : SFAcc),
      buildFor object_name op eid records = Except.error e →
      processBatch send (buildFor object_name op eid) acc records = Except.error e) := by
  refine ⟨?_, ?_, ?_, ?_, ?_⟩
  · intro eid hex
    exact build_err_shape _ _ _ _ _ (mapM_update_missing object_name eid records hex)
  · intro eid hex
    exact build_err_shape _ _ _ _ _ (mapM_delete_missing object_name eid records hex)
  · intro eid heid hne
    cases records with
    | nil => exact absurd rfl hne
    | cons r rest =>
      apply build_err_shape
      simp only [List.mapM_cons, build_sobject_upsert_noeid object_name eid heid r]
      rfl
  · intro f hf hex
    exact build_err_shape _ _ _ _ _ (mapM_upsert_missing object_name f hf records hex)
  · intro op eid e send acc hbe
    exact processBatch_build_err send _ acc records e hbe

/-- Closed instance of `payload_preconditions` at a one-record batch
lacking both `Id` and the external-id field. -/
theorem payload_preconditions_witness :
    ((∃ r ∈ [wRecNoId], r.lookup "Id" = none) ∧
      build_sobject_collection_payload [wRecNoId] "Account" "update" none =
        Except.error "Record is missing an 'Id' field for update.") ∧
    (build_sobject_collection_payload [wRecNoId] "Account" "delete" none =
      Except.error "Record is missing an 'Id' field for delete.") ∧
    (build_sobject_collection_payload [wRecNoId] "Account" "upsert" none =
      Except.error "Must specify --external_id_field for upsert.") ∧
    (build_sobject_collection_payload [wRecNoId] "Account" "upsert" (some "Ext__c") =
      Except.error ("Record is missing '" ++ "Ext__c" ++ "' field for upsert.")) ∧
    (processBatch wSendShort (buildFor "Account" "update" none) ([], [], []) [wRecNoId] =
      Except.error "Record is missing an 'Id' field for update.") :=
  ⟨⟨⟨wRecNoId, by simp, rfl⟩,
    (payload_preconditions "Account" [wRecNoId]).1 none ⟨wRecNoId, by simp, rfl⟩⟩,
   (payload_preconditions "Account" [wRecNoId]).2.1 none ⟨wRecNoId, by simp, rfl⟩,
   (payload_preconditions "Account" [wRecNoId]).2.2.1 none (Or.inl rfl) (by simp),
   (payload_preconditions "Account" [wRecNoId]).2.2.2.1 "Ext__c" (by simp)
     ⟨wRecNoId, by simp, rfl⟩,
   (payload_preconditions "Account" [wRecNoId]).2.2.2.2 "update" none
     "Record is missing an 'Id' field for update." wSendShort ([], [], []) rfl⟩

/-- C5 (confirmed).  Response-count mismatch policy: when the dispatcher
returns a list of a different length, the batch step still succeeds,
appends the count-mismatch warning, and classifies exactly the
overlapping prefix: the number of produced entries is
`min len(batch) len(responses)`, and every produced entry's record comes
from the prefix of the batch covered by the responses. -/
theorem count_mismatch_policy (send : Payload → Except String (List SFResponse))
    (bp : List Rec → Except String Payload) (acc : SFAcc) (chunk : List Rec)
    (payload : Payload) (result_records : List SFResponse)
    (hb : bp chunk = Except.ok payload) (hs : send payload = Except.ok result_records)
    (hmis : result_records.length ≠ chunk.length) :
    processBatch send bp acc chunk =
      Except.ok (acc.1 ++ (reconcile (chunk.zip result_records)).1,
        acc.2.1 ++ (reconcile (chunk.zip result_records)).2,
        acc.2.2 ++ [countMismatchWarning]) ∧
    (reconcile (chunk.zip result_records)).1.length +
        (reconcile (chunk.zip result_records)).2.length =
      min chunk.length result_records.length ∧
    (∀ entry ∈ (reconcile (chunk.zip result_records)).1,
      entry.record ∈ chunk.take result_records.length) ∧
    (∀ entry ∈ (reconcile (chunk.zip result_records)).2,
      entry.record ∈ chunk.take result_records.length) := by
  refine ⟨?_, ?_, ?_, ?_⟩
  · rw [processBatch_ok send bp acc chunk payload result_records hb hs, if_pos hmis]
  · rw [reconcile_length, List.length_zip]
  · intro entry hmem
    rw [reconcile_fst] at hmem
    obtain ⟨p, hp, hpe⟩ := List.mem_map.mp hmem
    obtain ⟨p1, p2⟩ := p
    have hpz : (p1, p2) ∈ chunk.zip result_records := List.mem_of_mem_filter hp
    rw [zip_take_len] at hpz
    rw [Eq.symm hpe]
    exact (List.of_mem_zip hpz).1
  · intro entry hmem
    rw [reconcile_snd] at hmem
    obtain ⟨p, hp, hpe⟩ := List.mem_map.mp hmem
    obtain ⟨p1, p2⟩ := p
    have hpz : (p1, p2) ∈ chunk.zip result_records := List.mem_of_mem_filter hp
    rw [zip_take_len] at hpz
    rw [Eq.symm hpe]
    exact (List.of_mem_zip hpz).1

/-- Closed instance of `count_mismatch_policy`: a two-record batch
receiving one response yields one entry and the warning. -/
theorem count_mismatch_policy_witness :
    ([wRespOk1].length ≠ [wRecA, wRecB].length) ∧
    ((processBatch wSendShort (fun c => Except.ok (wPayloadIns c)) ([], [], [])
        [wRecA, wRecB] =
      Except.ok ([⟨wRecA, some "001"⟩], [], [countMismatchWarning])) ∧
    ((reconcile ([wRecA, wRecB].zip [wRespOk1])).1.length +
        (reconcile ([wRecA, wRecB].zip [wRespOk1])).2.length =
      min [wRecA, wRecB].length [wRespOk1].length) ∧
    (∀ entry ∈ (reconcile ([wRecA, wRecB].zip [wRespOk1])).1,
      entry.record ∈ [wRecA, wRecB].take [wRespOk1].length) ∧
    (∀ entry ∈ (reconcile ([wRecA, wRecB].zip [wRespOk1])).2,
      entry.record ∈ [wRecA, wRecB].take [wRespOk1].length)) :=
  ⟨by decide, count_mismatch_policy wSendShort (fun c => Except.ok (wPayloadIns c))
    ([], [], []) [wRecA, wRecB] (wPayloadIns [wRecA, wRecB]) [wRespOk1]
    rfl rfl (by decide)⟩

/-- C3 (confirmed).  Fail-fast across batches: if the batches before `c`
process cleanly, the payload for `c` builds, and dispatching it raises a
transport-level error `e`, then the whole orchestration returns exactly
that error — no success or failure entries from any batch, earlier or
later, are surfaced to the caller. -/
theorem fail_fast (object_name operation : String) (records : List Rec)
    (external_id_field : Option String) (batch_size : Int)
    (send : Payload → Except String (List SFResponse))
    (pre post : List (List Rec)) (c : List Rec) (acc1 : SFAcc) (p : Payload) (e : String)
    (hchunks : chunk_list records batch_size = Except.ok (pre ++ c :: post))
    (hpre : processChunks send (buildFor object_name operation external_id_field) pre
      ([], [], []) = Except.ok acc1)
    (hbp : buildFor object_name operation external_id_field c = Except.ok p)
    (hsend : send p = Except.error e) :
    perform_operation_in_batches object_name operation records external_id_field
      batch_size send = Except.error e := by
  simp only [perform_operation_in_batches, hchunks]
  rw [processChunks_append send (buildFor object_name operation external_id_field)
    pre (c :: post) ([], [], [])]
  simp only [hpre]
  have hpb := processBatch_send_err send (buildFor object_name operation external_id_field)
    acc1 c p e hbp hsend
  simp only [processChunks, hpb]

/-- Closed instance of `fail_fast`: four records in two batches, the
dispatcher raising on the second batch; the orchestration returns the
transport error and surfaces nothing from batch 1. -/
theorem fail_fast_witness :
    perform_operation_in_batches "Account" "insert" [wRecA, wRecB, wRecC, wRecD] none 2
      wSendFailSecond = Except.error "TransportError" :=
  fail_fast "Account" "insert" [wRecA, wRecB, wRecC, wRecD] none 2 wSendFailSecond
    [[wRecA, wRecB]] [] [wRecC, wRecD]
    ([⟨wRecA, some "001"⟩, ⟨wRecB, some "002"⟩], [], [])
    (wPayloadIns [wRecC, wRecD]) "TransportError" rfl rfl rfl rfl

theorem sum_len_reconcile (sendF : List Rec → List SFResponse) :
    ∀ chunks : List (List Rec),
      (chunks.map fun c => (reconcile (c.zip (sendF c))).1.length).sum +
        (chunks.map fun c => (reconcile (c.zip (sendF c))).2.length).sum =
      (chunks.map fun c => (c.zip (sendF c)).length).sum
  | [] => rfl
  | c :: rest => by
    simp only [List.map_cons, List.sum_cons]
    have h1 := reconcile_length (c.zip (sendF c))
    have h2 := sum_len_reconcile sendF rest
    omega

/-- C6 (confirmed).  Per-record failures never abort: when the builder
and dispatcher succeed on every batch, the orchestration returns the
success and failure lists of every batch concatenated in batch order
(position order within each batch), the two lists together account for
every zipped pair, and each zipped pair lands in the success list when
its flag is true and in the failure list when it is not. -/
theorem per_record_failures_never_abort (object_name operation : String)
    (records : List Rec) (external_id_field : Option String) (batch_size : Int)
    (send : Payload → Except String (List SFResponse))
    (bpF : List Rec → Payload) (sendF : List Rec → List SFResponse)
    (chunks : List (List Rec))
    (hchunks : chunk_list records batch_size = Except.ok chunks)
    (hbp : ∀ c ∈ chunks,
      buildFor object_name operation external_id_field c = Except.ok (bpF c))
    (hsend : ∀ c ∈ chunks, send (bpF c) = Except.ok (sendF c)) :
    ∃ W : List String,
      perform_operation_in_batches object_name operation records external_id_field
          batch_size send =
        Except.ok ((chunks.map fun c => (reconcile (c.zip (sendF c))).1).flatten,
          (chunks.map fun c => (reconcile (c.zip (sendF c))).2).flatten, W) ∧
      ((chunks.map fun c => (reconcile (c.zip (sendF c))).1).flatten).length +
          ((chunks.map fun c => (reconcile (c.zip (sendF c))).2).flatten).length =
        (chunks.map fun c => (c.zip (sendF c)).length).sum ∧
      (∀ c ∈ chunks, ∀ pr ∈ c.zip (sendF c),
        (pr.2.success.getD false = true →
          SuccessEntry.mk pr.1 pr.2.id ∈
            (chunks.map fun c => (reconcile (c.zip (sendF c))).1).flatten) ∧
        (pr.2.success.getD false = false →
          FailureEntry.mk pr.1 (combineErrors pr.2.errors) ∈
            (chunks.map fun c => (reconcile (c.zip (sendF c))).2).flatten)) := by
  obtain ⟨W, hW⟩ := processChunks_ok_of send
    (buildFor object_name operation external_id_field) bpF sendF chunks hbp hsend [] [] []
  refine ⟨W, ?_, ?_, ?_⟩
  · simp only [perform_operation_in_batches, hchunks]
    rw [hW]
    simp only [List.nil_append]
  · rw [List.length_flatten, List.length_flatten, List.map_map, List.map_map]
    exact sum_len_reconcile sendF chunks
  · intro c hc pr hpr
    constructor
    · intro hsucc
      apply List.mem_flatten.mpr
      refine ⟨(reconcile (c.zip (sendF c))).1, List.mem_map_of_mem _ hc, ?_⟩
      rw [reconcile_fst]
      exact List.mem_map.mpr ⟨pr, List.mem_filter.mpr ⟨hpr, hsucc⟩, rfl⟩
    · intro hfail
      apply List.mem_flatten.mpr
      refine ⟨(reconcile (c.zip (sendF c))).2, List.mem_map_of_mem _ hc, ?_⟩
      rw [reconcile_snd]
      refine List.mem_map.mpr ⟨pr, List.mem_filter.mpr ⟨hpr, ?_⟩, rfl⟩
      rw [hfail]
      rfl

/-- Closed instance of `per_record_failures_never_abort`: three records
in two batches, with a per-record failure in batch 1; orchestration
still processes batch 2 and returns both lists. -/
theorem per_record_failures_never_abort_witness :
    (∀ c ∈ [[wRecA, wRecB], [wRecC]],
      buildFor "Account" "insert" none c = Except.ok (wPayloadIns c)) ∧
    (∀ c ∈ [[wRecA, wRecB], [wRecC]], wSendMixed (wPayloadIns c) =
      Except.ok (wSendFResp c)) ∧
    (∃ W : List String,
      perform_operation_in_batches "Account" "insert" [wRecA, wRecB, wRecC] none 2
          wSendMixed =
        Except.ok (([[wRecA, wRecB], [wRecC]].map
            fun c => (reconcile (c.zip (wSendFResp c))).1).flatten,
          ([[wRecA, wRecB], [wRecC]].map
            fun c => (reconcile (c.zip (wSendFResp c))).2).flatten, W) ∧
      (([[wRecA, wRecB], [wRecC]].map
          fun c => (reconcile (c.zip (wSendFResp c))).1).flatten).length +
          (([[wRecA, wRecB], [wRecC]].map
            fun c => (reconcile (c.zip (wSendFResp c))).2).flatten).length =
        ([[wRecA, wRecB], [wRecC]].map fun c => (c.zip (wSendFResp c)).length).sum ∧
      (∀ c ∈ [[wRecA, wRecB], [wRecC]], ∀ pr ∈ c.zip (wSendFResp c),
        (pr.2.success.getD false = true →
          SuccessEntry.mk pr.1 pr.2.id ∈
            ([[wRecA, wRecB], [wRecC]].map
              fun c => (reconcile (c.zip (wSendFResp c))).1).flatten) ∧
        (pr.2.success.getD false = false →
          FailureEntry.mk pr.1 (combineErrors pr.2.errors) ∈
            ([[wRecA, wRecB], [wRecC]].map
              fun c => (reconcile (c.zip (wSendFResp c))).2).flatten))) :=
  ⟨by intro c hc; fin_cases hc <;> rfl,
   by intro c hc; fin_cases hc <;> rfl,
   per_record_failures_never_abort "Account" "insert" [wRecA, wRecB, wRecC] none 2
     wSendMixed wPayloadIns wSendFResp [[wRecA, wRecB], [wRecC]] rfl
     (by intro c hc; fin_cases hc <;> rfl)
     (by intro c hc; fin_cases hc <;> rfl)⟩

end Upload
